import Mathlib

/-!
Shallow embedding of the in-memory analytical data layer of the Brent oil
dashboard backend (src/dashboard/backend/app.py, class OilDataAPI).

Modelling conventions:
* Calendar dates are integers (day numbers); pandas Timestamp subtraction
  `.dt.days` becomes integer subtraction, `timedelta(days=w)` becomes `± w`.
* float64 values are modelled as exact rationals; a pandas NaN cell is
  modelled as `none` of an `Option` type.
* `np.log` has no computable rational value, so a log-return cell stores the
  pair of prices `(prev, cur)` it is the logarithm-difference of, and is
  `none` (NaN) when a price is non-positive; every property checked here
  depends only on definedness of such cells, never on their numeric value.
  Likewise a rolling-volatility cell stores the window of log-return pairs
  whose standard deviation (times sqrt 252) the float code would report.
* Raised Python exceptions escaping a method are `Except.error` outcomes.
-/

namespace Oil

/-- A raw price record as loaded: a date (day number) and a price. -/
structure PRecord where
  date : Int
  price : ℚ
deriving DecidableEq, Repr

/-- A derived price row: the columns `calculate_metrics` adds to the table.
`log_return` is the symbolic pair (previous price, current price);
`rolling_volatility_30d` is the symbolic 30-entry window of such pairs. -/
structure DRow where
  date : Int
  price : ℚ
  daily_return : Option ℚ
  log_return : Option (ℚ × ℚ)
  rolling_mean_30d : Option ℚ
  rolling_volatility_30d : Option (List (ℚ × ℚ))
deriving DecidableEq, Repr

/-- An event record (id, date, name, type, region, severity). -/
structure EventRecord where
  id : Int
  date : Int
  name : String
  type : String
  region : String
  severity : String
deriving DecidableEq, Repr

/-- Stable insertion into a list sorted by `le` (keeps existing equal keys
first, matching a stable sort). -/
def insertBy (le : α → α → Bool) (x : α) : List α → List α
  | [] => [x]
  | a :: rest => if le a x then a :: insertBy le x rest else x :: a :: rest

/-- Stable insertion sort, modelling `DataFrame.sort_values`. -/
def sortBy (le : α → α → Bool) : List α → List α
  | [] => []
  | a :: rest => insertBy le a (sortBy le rest)

/-- Sort price records ascending by date (`sort_values('date')`). -/
def sortByDate (l : List PRecord) : List PRecord :=
  sortBy (fun a b => decide (a.date ≤ b.date)) l

/-- Arithmetic mean of a list of rationals (`Series.mean` on a NaN-free
column); junk value 0 on the empty list, which callers guard against. -/
def meanQ (l : List ℚ) : ℚ := l.sum / (l.length : ℚ)

/-- Model of `pct_change` for one transition: `cur / prev - 1`; NaN-modelled as
`none` when the previous price is 0. -/
def pctChange (prev cur : ℚ) : Option ℚ :=
  if prev = 0 then none else some (cur / prev - 1)

/-- Model of `np.log(price).diff()` for one transition, symbolically: the pair
(prev, cur) standing for ln cur − ln prev; `none` (NaN) unless both prices
are strictly positive. -/
def logReturn (prev cur : ℚ) : Option (ℚ × ℚ) :=
  if 0 < prev ∧ 0 < cur then some (prev, cur) else none

/-- The `daily_return` column at index `i` of the sorted table: undefined on the
first row. -/
def drAt (s : List PRecord) (i : Nat) : Option ℚ :=
  if i = 0 then none
  else pctChange (s.getD (i - 1) ⟨0, 0⟩).price (s.getD i ⟨0, 0⟩).price

/-- The `log_return` column at index `i` of the sorted table: undefined on the
first row. -/
def lrAt (s : List PRecord) (i : Nat) : Option (ℚ × ℚ) :=
  if i = 0 then none
  else logReturn (s.getD (i - 1) ⟨0, 0⟩).price (s.getD i ⟨0, 0⟩).price

/-- Model of `rolling(window=30).mean()` of the price column at index `i`: the mean
of the trailing 30 prices, NaN (`none`) until 30 records exist. -/
def rmAt (s : List PRecord) (i : Nat) : Option ℚ :=
  if 29 ≤ i then
    some (meanQ ((List.range 30).map (fun k => (s.getD (i - 29 + k) ⟨0, 0⟩).price)))
  else none

/-- Collect a list of options into an option of a list: `none` as soon as
one entry is `none` (a NaN inside a full window makes the rolling statistic
NaN under the default `min_periods = window`). -/
def allSome : List (Option α) → Option (List α)
  | [] => some []
  | none :: _ => none
  | some a :: rest => (allSome rest).map (a :: ·)

/-- Model of `log_return.rolling(window=30).std() * sqrt(252)` at index `i`,
symbolically: the window of 30 log-return pairs when the window is full and
every entry is defined, `none` (NaN) otherwise. -/
def rvAt (s : List PRecord) (i : Nat) : Option (List (ℚ × ℚ)) :=
  if 29 ≤ i then allSome ((List.range 30).map (fun k => lrAt s (i - 29 + k)))
  else none

/-- The full derived row at index `i` of the sorted table. -/
def mkRow (s : List PRecord) (i : Nat) : DRow :=
  { date := (s.getD i ⟨0, 0⟩).date
    price := (s.getD i ⟨0, 0⟩).price
    daily_return := drAt s i
    log_return := lrAt s i
    rolling_mean_30d := rmAt s i
    rolling_volatility_30d := rvAt s i }

/-- Model of `OilDataAPI.calculate_metrics`: sort by date, add the derived columns,
then `dropna(subset=['log_return'])` (keep only rows whose log-return is
defined). -/
def calculate_metrics (l : List PRecord) : List DRow :=
  let s := sortByDate l
  ((List.range s.length).map (mkRow s)).filter (fun r => r.log_return.isSome)

/-! Date-string parsing, modelling the subset of `pd.Timestamp(str)` used on
the boundary: ISO-8601 calendar dates `YYYY-MM-DD`; any other string raises,
which the model reports as `none`. -/

/-- Split a character list on the dash character. -/
def splitDash : List Char → List (List Char)
  | [] => [[]]
  | c :: rest =>
    let r := splitDash rest
    if c = '-' then [] :: r
    else
      match r with
      | [] => [[c]]
      | g :: gs => (c :: g) :: gs

/-- Read a non-empty all-digit character list as a natural number. -/
def digitsToNat (cs : List Char) : Option Nat :=
  if cs ≠ [] ∧ cs.all Char.isDigit then
    some (cs.foldl (fun acc c => acc * 10 + (c.toNat - 48)) 0)
  else none

/-- Gregorian leap-year test. -/
def isLeapYear (y : Nat) : Bool :=
  y % 4 == 0 && (y % 100 != 0 || y % 400 == 0)

/-- Number of days in a month of a given year. -/
def daysInMonth (y m : Nat) : Nat :=
  if m = 2 then (if isLeapYear y then 29 else 28)
  else if m = 4 ∨ m = 6 ∨ m = 9 ∨ m = 11 then 30
  else 31

/-- Days in the months of year `y` strictly before month `m`. -/
def daysBeforeMonth (y m : Nat) : Nat :=
  ((List.range (m - 1)).map (fun k => daysInMonth y (k + 1))).sum

/-- Day number of a calendar date (days since an epoch, monotone in the
date, with exact day differences across the Gregorian calendar). -/
def toDayNumber (y m d : Nat) : Int :=
  ((365 * (y - 1) + (y - 1) / 4 - (y - 1) / 100 + (y - 1) / 400
    + daysBeforeMonth y m + (d - 1) : Nat) : Int)

/-- Parse an ISO-8601 date string to its day number; `none` models the
`ValueError` that `pd.Timestamp` raises on an unparseable string. -/
def parseDate (s : String) : Option Int :=
  match splitDash s.toList with
  | [ys, ms, ds] =>
    match digitsToNat ys, digitsToNat ms, digitsToNat ds with
    | some y, some m, some d =>
      if ys.length = 4 ∧ 1 ≤ m ∧ m ≤ 12 ∧ 1 ≤ d ∧ d ≤ daysInMonth y m then
        some (toDayNumber y m d)
      else none
    | _, _, _ => none
  | _ => none

/-- A Python exception escaping an `OilDataAPI` method: the `ValueError` of
an unparseable date (carrying the offending input, as the exception message
does) or the `ZeroDivisionError` of `len(df) // 0`. -/
inductive FacadeExn where
  | parseError (offending : String)
  | zeroDivisionError
deriving DecidableEq, Repr

/-- Evaluate an optional date-bound argument the way the facade does:
`None` and the empty string are falsy, so no bound; otherwise the string is
parsed, raising (error) when unparseable. -/
def parseBound (o : Option String) : Except FacadeExn (Option Int) :=
  match o with
  | none => .ok none
  | some s =>
    if s = "" then .ok none
    else
      match parseDate s with
      | some d => .ok (some d)
      | none => .error (.parseError s)

/-- Stride sampling `df.iloc[::k]` for `k ≥ 1`: every `k`-th element
starting from index 0. -/
def strideEvery (l : List α) (k : Nat) : List α :=
  match l with
  | [] => []
  | a :: rest => a :: strideEvery (rest.drop (k - 1)) k
termination_by l.length
decreasing_by
  simp only [List.length_drop, List.length_cons]
  omega

/-- Length of the Python expression `range(0, n, step)` for `step ≥ 1`
(Python raises on `step = 0`; that branch is never reached here). -/
def pyRangeLen (n step : Nat) : Nat :=
  if step = 0 then 0 else (n + step - 1) / step

/-- Lower date-bound filter of `get_price_data`. -/
def dateFilterLower (d0 : Option Int) (data : List DRow) : List DRow :=
  match d0 with
  | none => data
  | some d => data.filter (fun r => decide (d ≤ r.date))

/-- Upper date-bound filter of `get_price_data`. -/
def dateFilterUpper (d1 : Option Int) (data : List DRow) : List DRow :=
  match d1 with
  | none => data
  | some d => data.filter (fun r => decide (r.date ≤ d))

/-- Core of `OilDataAPI.get_price_data` after date parsing: filter by the
bounds, then, when the filtered length exceeds `limit`, downsample with
stride `len // limit` (a `limit` of 0 raises `ZeroDivisionError` there). -/
def get_price_data_core (startD endD : Option Int) (limit : Nat)
    (data : List DRow) : Except FacadeExn (List DRow) :=
  let df := dateFilterUpper endD (dateFilterLower startD data)
  if limit < df.length then
    if limit = 0 then .error .zeroDivisionError
    else .ok (strideEvery df (df.length / limit))
  else .ok df

/-- Model of `OilDataAPI.get_price_data`: evaluate the date-bound strings
(raising on an unparseable one, start bound first as in the source), then
filter and downsample. -/
def get_price_data (start_date end_date : Option String) (limit : Nat)
    (data : List DRow) : Except FacadeExn (List DRow) :=
  match parseBound start_date with
  | .error e => .error e
  | .ok d0 =>
    match parseBound end_date with
    | .error e => .error e
    | .ok d1 => get_price_data_core d0 d1 limit data

/-- Model of `OilDataAPI.get_events`: optional type filter (skipped for a
falsy value or the sentinel string), then the two date-bound filters with
the same raising parse as `get_price_data`. -/
def get_events (event_type start_date end_date : Option String)
    (data : List EventRecord) : Except FacadeExn (List EventRecord) :=
  let df0 :=
    match event_type with
    | none => data
    | some t =>
      if t = "" then data
      else if t = "all" then data
      else data.filter (fun e => e.type == t)
  match parseBound start_date with
  | .error e => .error e
  | .ok d0 =>
    let df1 :=
      match d0 with
      | none => df0
      | some d => df0.filter (fun e => decide (d ≤ e.date))
    match parseBound end_date with
    | .error e => .error e
    | .ok d1 =>
      .ok (match d1 with
           | none => df1
           | some d => df1.filter (fun e => decide (e.date ≤ d)))

/-- Combine two values with a function, `none` on the empty list: used for
column `min` and `max` of a non-empty series. -/
def reduceWith (f : α → α → α) : List α → Option α
  | [] => none
  | a :: t => some (t.foldl f a)

/-- Model of `Series.median`: sort, middle element for odd length, mean of
the two middle elements for even length; junk 0 on the empty list. -/
def medianQ (l : List ℚ) : ℚ :=
  let s := sortBy (fun a b => decide (a ≤ b)) l
  let n := s.length
  if n % 2 = 1 then s.getD (n / 2) 0
  else (s.getD (n / 2 - 1) 0 + s.getD (n / 2) 0) / 2

/-- Sample variance (`ddof = 1`), the square of the standard deviation the
code reports; NaN (`none`) for fewer than two observations. -/
def sampleVarQ (l : List ℚ) : Option ℚ :=
  if 2 ≤ l.length then
    let m := meanQ l
    some ((l.map (fun x => (x - m) * (x - m))).sum / ((l.length : ℚ) - 1))
  else none

/-- The summary-statistics payload. `price_var` carries the sample variance
whose square root the float code reports as `std`; `volatility` carries the
symbolic last rolling-volatility cell. -/
structure SummaryStats where
  date_start : Int
  date_end : Int
  price_min : ℚ
  price_max : ℚ
  price_mean : ℚ
  price_median : ℚ
  price_var : Option ℚ
  price_current : ℚ
  mean_daily_return : Option ℚ
  volatility : Option (List (ℚ × ℚ))
deriving DecidableEq, Repr

/-- Model of `OilDataAPI.get_summary_stats` over the stored (derived) price
table; the Python crashes on an empty table (`iloc[-1]`), modelled as
`none`. The mean of `daily_return` skips NaN cells as `Series.mean` does. -/
def get_summary_stats (data : List DRow) : Option SummaryStats :=
  match data with
  | [] => none
  | r0 :: rest =>
    let rows := r0 :: rest
    let prices := rows.map (fun r => r.price)
    let dates := rows.map (fun r => r.date)
    let drs := rows.filterMap (fun r => r.daily_return)
    some
      { date_start := (reduceWith min dates).getD 0
        date_end := (reduceWith max dates).getD 0
        price_min := (reduceWith min prices).getD 0
        price_max := (reduceWith max prices).getD 0
        price_mean := meanQ prices
        price_median := medianQ prices
        price_var := sampleVarQ prices
        price_current := (rows.getLastD r0).price
        mean_daily_return := if drs.isEmpty then none else some (meanQ drs)
        volatility := (rows.getLastD r0).rolling_volatility_30d }

/-- The impact payload of `get_event_impact`: the event, the two optional
window means, the optional percentage change, and the capped preview of
windowed rows paired with their signed day offset from the event. -/
structure Impact where
  event : EventRecord
  price_before : Option ℚ
  price_after : Option ℚ
  price_change_pct : Option ℚ
  data_points : List (DRow × Int)
deriving DecidableEq, Repr

/-- Membership test for the closed 30-day window around an event date. -/
def inWindow (evDate d : Int) : Bool :=
  decide (evDate - 30 ≤ d) && decide (d ≤ evDate + 30)

/-- Body of `get_event_impact` once the event row has been found: select
price rows in the closed 30-day window (`none` when empty), partition by
the signed day offset, and build the impact payload.  The percentage
change is set only when both means are truthy in the Python sense (present
and non-zero). -/
def impactForEvent (ev : EventRecord) (prices : List DRow) : Option Impact :=
  let event_data := prices.filter (fun r => inWindow ev.date r.date)
  if event_data.isEmpty then none
  else
    let withDays := event_data.map (fun r => (r, r.date - ev.date))
    let before_event := withDays.filter (fun p => decide (p.2 < 0))
    let after_event := withDays.filter (fun p => decide (0 < p.2))
    let price_before :=
      if before_event.isEmpty then none
      else some (meanQ (before_event.map (fun p => p.1.price)))
    let price_after :=
      if after_event.isEmpty then none
      else some (meanQ (after_event.map (fun p => p.1.price)))
    let pct :=
      match price_before, price_after with
      | some b, some a => if b ≠ 0 ∧ a ≠ 0 then some ((a - b) / b * 100) else none
      | _, _ => none
    some { event := ev
           price_before := price_before
           price_after := price_after
           price_change_pct := pct
           data_points := withDays.take 100 }

/-- Model of `OilDataAPI.get_event_impact`: look up the event by id (first
match), returning `none` when the id is absent, then compute the windowed
impact. -/
def get_event_impact (events : List EventRecord) (prices : List DRow)
    (event_id : Int) : Option Impact :=
  match (events.filter (fun e => e.id == event_id)).head? with
  | none => none
  | some ev => impactForEvent ev prices

/-- The change-point structured payload: passthrough data. -/
structure ChangePointInfo where
  index : Int
  date : String
  description : String
deriving DecidableEq, Repr

/-- Impact part of the change-point payload. -/
structure ChangePointImpact where
  price_before : ℚ
  price_after : ℚ
  price_change_pct : ℚ
deriving DecidableEq, Repr

/-- The loaded change-point result, never computed by the core. -/
structure ChangePoints where
  change_point : ChangePointInfo
  impact : ChangePointImpact
deriving DecidableEq, Repr

/-- The process-wide state an `OilDataAPI` instance holds after the initial
load/derive pass. -/
structure ApiState where
  price_data : List DRow
  events_data : List EventRecord
  change_points : ChangePoints
deriving DecidableEq, Repr

/-- Model of `OilDataAPI.get_change_points`: passthrough. -/
def get_change_points (s : ApiState) : ChangePoints := s.change_points

/-- One read request against the facade. -/
inductive Query where
  | prices (start_date end_date : Option String) (limit : Nat)
  | events (event_type start_date end_date : Option String)
  | changePoints
  | stats
  | impact (event_id : Int)

/-- The answer of one read request. -/
inductive QueryResult where
  | prices : Except FacadeExn (List DRow) → QueryResult
  | events : Except FacadeExn (List EventRecord) → QueryResult
  | changePoints : ChangePoints → QueryResult
  | stats : Option SummaryStats → QueryResult
  | impact : Option Impact → QueryResult

/-- Run one read request; the state component is what the method leaves in
`self` (the Python methods assign no attribute, they work on copies). -/
def runQuery (s : ApiState) : Query → QueryResult × ApiState
  | .prices sd ed lim => (.prices (get_price_data sd ed lim s.price_data), s)
  | .events t sd ed => (.events (get_events t sd ed s.events_data), s)
  | .changePoints => (.changePoints (get_change_points s), s)
  | .stats => (.stats (get_summary_stats s.price_data), s)
  | .impact i => (.impact (get_event_impact s.events_data s.price_data i), s)

/-- Run a sequence of read requests, threading the state. -/
def runQueries (s : ApiState) (qs : List Query) : ApiState :=
  qs.foldl (fun st q => (runQuery st q).2) s

/-- Price selection of the impact window, stated from dates alone. -/
def windowSel (prices : List DRow) (evDate : Int) : List DRow :=
  prices.filter (fun r => inWindow evDate r.date)

/-- Before-partition of the impact window: records strictly before the
event date. -/
def beforeSel (prices : List DRow) (evDate : Int) : List DRow :=
  (windowSel prices evDate).filter (fun r => decide (r.date < evDate))

/-- After-partition of the impact window: records strictly after the event
date. -/
def afterSel (prices : List DRow) (evDate : Int) : List DRow :=
  (windowSel prices evDate).filter (fun r => decide (evDate < r.date))

/-! Helper lemmas. -/

theorem insertBy_length (le : α → α → Bool) (x : α) (l : List α) :
    (insertBy le x l).length = l.length + 1 := by
  induction l with
  | nil => rfl
  | cons a rest ih =>
    unfold insertBy
    by_cases h : le a x = true
    · simp [h, ih]
    · simp [h]

theorem sortBy_length (le : α → α → Bool) (l : List α) :
    (sortBy le l).length = l.length := by
  induction l with
  | nil => rfl
  | cons a rest ih => unfold sortBy; rw [insertBy_length, ih, List.length_cons]

theorem mem_insertBy (le : α → α → Bool) (x y : α) (l : List α) :
    y ∈ insertBy le x l ↔ y = x ∨ y ∈ l := by
  induction l with
  | nil => simp [insertBy]
  | cons a rest ih =>
    unfold insertBy
    by_cases h : le a x = true
    · simp only [if_pos h, List.mem_cons, ih]
      try tauto
    · simp only [if_neg h, List.mem_cons]
      try tauto

theorem mem_sortBy (le : α → α → Bool) (y : α) (l : List α) :
    y ∈ sortBy le l ↔ y ∈ l := by
  induction l with
  | nil => simp [sortBy]
  | cons a rest ih => unfold sortBy; rw [mem_insertBy]; simp [ih]

theorem getD_mem {l : List α} {i : Nat} (h : i < l.length) (d : α) :
    l.getD i d ∈ l := by
  induction l generalizing i with
  | nil => simp at h
  | cons a rest ih =>
    cases i with
    | zero => simp [List.getD]
    | succ j =>
      simp only [List.getD_cons_succ]
      exact List.mem_cons_of_mem a (ih (by simpa using h) )

theorem filter_map_comm (f : α → β) (p : β → Bool) (l : List α) :
    (l.map f).filter p = (l.filter (fun a => p (f a))).map f := by
  induction l with
  | nil => rfl
  | cons a rest ih =>
    by_cases h : p (f a) = true
    · simp [h, ih]
    · simp [h, ih]

theorem allSome_isSome (l : List (Option α)) :
    (allSome l).isSome = true ↔ ∀ o ∈ l, o.isSome = true := by
  induction l with
  | nil => simp [allSome]
  | cons o rest ih =>
    cases o with
    | none => simp [allSome]
    | some a => simp [allSome, ih]

theorem range_filter_ne (n : Nat) :
    (List.range n).filter (fun i => decide (i ≠ 0)) =
      (List.range (n - 1)).map (· + 1) := by
  induction n with
  | zero => rfl
  | succ m ih =>
    rw [List.range_succ, List.filter_append, ih]
    cases m with
    | zero => rfl
    | succ k =>
      simp only [Nat.add_sub_cancel]
      rw [List.range_succ, List.map_append]
      simp

theorem lrAt_isSome (s : List PRecord) (hpos : ∀ r ∈ s, 0 < r.price)
    (i : Nat) (hi : i < s.length) :
    (lrAt s i).isSome = decide (i ≠ 0) := by
  unfold lrAt
  by_cases h0 : i = 0
  · simp [h0]
  · have h1 : 0 < (s.getD (i - 1) ⟨0, 0⟩).price :=
      hpos _ (getD_mem (by omega) _)
    have h2 : 0 < (s.getD i ⟨0, 0⟩).price := hpos _ (getD_mem hi _)
    rw [if_neg h0]
    unfold logReturn
    rw [if_pos ⟨h1, h2⟩]
    simp [h0]

/-- On a table of strictly positive prices, `calculate_metrics` is the map
of the derived-row constructor over indices 1 through length − 1 of the
sorted table: exactly the first row is dropped. -/
theorem calculate_metrics_eq (l : List PRecord)
    (hpos : ∀ r ∈ l, 0 < r.price) :
    calculate_metrics l =
      (List.range (l.length - 1)).map (fun j => mkRow (sortByDate l) (j + 1)) := by
  unfold calculate_metrics
  have hlen : (sortByDate l).length = l.length := sortBy_length _ l
  have hposs : ∀ r ∈ sortByDate l, 0 < r.price := by
    intro r hr
    exact hpos r ((mem_sortBy _ r l).1 hr)
  rw [filter_map_comm]
  have hcongr : (List.range (sortByDate l).length).filter
        (fun i => ((mkRow (sortByDate l) i).log_return).isSome) =
      (List.range (sortByDate l).length).filter (fun i => decide (i ≠ 0)) := by
    apply List.filter_congr
    intro i hi
    exact lrAt_isSome (sortByDate l) hposs i (List.mem_range.1 hi)
  rw [hcongr, range_filter_ne, List.map_map, hlen]
  rfl

theorem strideEvery_cons (a : α) (rest : List α) (k : Nat) :
    strideEvery (a :: rest) k = a :: strideEvery (rest.drop (k - 1)) k := by
  rw [strideEvery]

theorem strideEvery_length (k : Nat) (hk : 1 ≤ k) :
    ∀ n (l : List α), l.length = n →
      (strideEvery l k).length = (n + k - 1) / k := by
  intro n
  induction n using Nat.strong_induction_on with
  | _ n IH =>
    intro l hl
    cases l with
    | nil =>
      simp only [List.length_nil] at hl
      rw [← hl]
      have h0 : strideEvery ([] : List α) k = [] := by rw [strideEvery]
      rw [h0, Nat.div_eq_of_lt (show 0 + k - 1 < k by omega)]
      rfl
    | cons a rest =>
      simp only [List.length_cons] at hl
      rw [strideEvery_cons, List.length_cons]
      have hdl : (rest.drop (k - 1)).length = rest.length - (k - 1) :=
        List.length_drop _ _
      have hlt : rest.length - (k - 1) < n := by omega
      rw [IH _ hlt (rest.drop (k - 1)) hdl]
      rcases le_or_lt (k - 1) rest.length with hc | hc
      · have e1 : rest.length - (k - 1) + k - 1 = rest.length := by omega
        have e2 : n + k - 1 = rest.length + k := by omega
        rw [e1, e2, Nat.add_div_right _ (by omega)]
      · have e1 : rest.length - (k - 1) + k - 1 = k - 1 := by omega
        have e2 : n + k - 1 = rest.length + k := by omega
        rw [e1, e2, Nat.add_div_right _ (by omega),
            Nat.div_eq_of_lt (show k - 1 < k by omega),
            Nat.div_eq_of_lt (show rest.length < k by omega)]

/-- Sortedness (ascending by date) of a price table, as an executable
check. -/
def isSortedByDate : List PRecord → Bool
  | [] => true
  | [_] => true
  | a :: b :: rest => decide (a.date ≤ b.date) && isSortedByDate (b :: rest)

/-- C2: on a sorted table of strictly positive prices, derivation drops
exactly the first record: output length is input length − 1 for at least
two records, and 0 for zero or one records. -/
theorem claim_C2 (l : List PRecord)
    (hsorted : isSortedByDate l = true)
    (hpos : ∀ r ∈ l, 0 < r.price) :
    (2 ≤ l.length → (calculate_metrics l).length = l.length - 1) ∧
    (l.length ≤ 1 → (calculate_metrics l).length = 0) := by
  have hlen : (calculate_metrics l).length = l.length - 1 := by
    rw [calculate_metrics_eq l hpos, List.length_map, List.length_range]
  exact ⟨fun _ => hlen, fun h1 => by rw [hlen]; omega⟩

def exC2 : List PRecord := [⟨0, 1⟩, ⟨1, 2⟩]

theorem claim_C2_witness :
    isSortedByDate exC2 = true ∧
    (∀ r ∈ exC2, 0 < r.price) ∧
    (calculate_metrics exC2).length = 1 := by
  refine ⟨?_, ?_, ?_⟩
  · decide
  · decide
  · exact (claim_C2 exC2 (by decide) (by decide)).1 (by decide)

/-- C3, amended: in the derived table of a sorted table of at least 30
strictly positive prices, `rolling_mean_30d` is defined exactly from the
29th derived row on (index 28), one row earlier than the claim states,
while `rolling_volatility_30d` is defined exactly from the 30th derived row
on (index 29). -/
theorem claim_C3 (l : List PRecord)
    (hsorted : isSortedByDate l = true)
    (hpos : ∀ r ∈ l, 0 < r.price)
    (h30 : 30 ≤ l.length) (j : Nat) (row : DRow)
    (hrow : (calculate_metrics l).get? j = some row) :
    (row.rolling_mean_30d.isSome = true ↔ 28 ≤ j) ∧
    (row.rolling_volatility_30d.isSome = true ↔ 29 ≤ j) := by
  rw [calculate_metrics_eq l hpos] at hrow
  have hj : j < l.length - 1 := by
    by_contra hc
    push_neg at hc
    rw [List.get?_eq_none.2 (by simpa using hc)] at hrow
    exact Option.noConfusion hrow
  rw [List.get?_map, List.get?_range hj, Option.map_some'] at hrow
  injection hrow with hrow
  subst hrow
  have hslen : (sortByDate l).length = l.length := sortBy_length _ l
  have hposs : ∀ r ∈ sortByDate l, 0 < r.price := by
    intro r hr
    exact hpos r ((mem_sortBy _ r l).1 hr)
  constructor
  · show (rmAt (sortByDate l) (j + 1)).isSome = true ↔ 28 ≤ j
    unfold rmAt
    by_cases h : 29 ≤ j + 1
    · rw [if_pos h]
      simp only [Option.isSome_some, true_iff]
      omega
    · rw [if_neg h]
      simp only [Option.isSome_none, Bool.false_eq_true, false_iff]
      omega
  · show (rvAt (sortByDate l) (j + 1)).isSome = true ↔ 29 ≤ j
    unfold rvAt
    by_cases h : 29 ≤ j + 1
    · rw [if_pos h, allSome_isSome]
      constructor
      · intro hall
        by_contra hc
        push_neg at hc
        have hj28 : j = 28 := by omega
        have h0 : lrAt (sortByDate l) (j + 1 - 29 + 0) = none := by
          rw [hj28]
          show lrAt (sortByDate l) 0 = none
          unfold lrAt
          simp
        have hmem : lrAt (sortByDate l) (j + 1 - 29 + 0) ∈
            (List.range 30).map (fun k => lrAt (sortByDate l) (j + 1 - 29 + k)) :=
          List.mem_map.2 ⟨0, by simp, rfl⟩
        have := hall _ hmem
        rw [h0] at this
        simp at this
      · intro h29 o ho
        obtain ⟨k, hk, rfl⟩ := List.mem_map.1 ho
        have hk30 : k < 30 := List.mem_range.1 hk
        have hidx : j + 1 - 29 + k < (sortByDate l).length := by
          rw [hslen]
          omega
        rw [lrAt_isSome (sortByDate l) hposs _ hidx]
        simp only [decide_eq_true_eq]
        omega
    · rw [if_neg h]
      simp only [Option.isSome_none, Bool.false_eq_true, false_iff]
      omega

def ex30 : List PRecord := (List.range 30).map (fun i => ⟨(i : Int), 1⟩)

set_option maxHeartbeats 1000000 in
/-- C3, counterexample: for a sorted 30-record table of positive prices the
29th derived row (index 28) is among the first 29 rows of the derived
table, yet its `rolling_mean_30d` is already defined. -/
theorem claim_C3_cex :
    ((calculate_metrics ex30).get? 28).map (fun r => r.rolling_mean_30d.isSome) =
      some true ∧
    (calculate_metrics ex30).length = 29 := by
  constructor
  · decide
  · decide

def ex31 : List PRecord := (List.range 31).map (fun i => ⟨(i : Int), 1⟩)

def ex31row : DRow :=
  ((calculate_metrics ex31).get? 29).getD ⟨0, 0, none, none, none, none⟩

set_option maxHeartbeats 1000000 in
theorem claim_C3_witness :
    (calculate_metrics ex31).get? 29 = some ex31row ∧
    ex31row.rolling_mean_30d.isSome = true ∧
    ex31row.rolling_volatility_30d.isSome = true := by
  have h := claim_C3 ex31 (by decide) (by decide) (by decide) 29 ex31row
    (by with_unfolding_all rfl)
  exact ⟨by with_unfolding_all rfl, h.1.mpr (by decide), h.2.mpr (by decide)⟩

theorem get_event_impact_found (events : List EventRecord) (prices : List DRow)
    (event_id : Int) (ev : EventRecord)
    (hev : (events.filter (fun e => e.id == event_id)).head? = some ev) :
    get_event_impact events prices event_id = impactForEvent ev prices := by
  unfold get_event_impact
  rw [hev]

theorem get_event_impact_missing (events : List EventRecord) (prices : List DRow)
    (event_id : Int)
    (hev : (events.filter (fun e => e.id == event_id)).head? = none) :
    get_event_impact events prices event_id = none := by
  unfold get_event_impact
  rw [hev]

theorem before_event_eq (prices : List DRow) (evDate : Int) :
    ((windowSel prices evDate).map (fun r => (r, r.date - evDate))).filter
        (fun p => decide (p.2 < 0)) =
      (beforeSel prices evDate).map (fun r => (r, r.date - evDate)) := by
  rw [filter_map_comm]
  unfold beforeSel
  congr 1
  apply List.filter_congr
  intro r hr
  simp [Int.sub_neg]

theorem after_event_eq (prices : List DRow) (evDate : Int) :
    ((windowSel prices evDate).map (fun r => (r, r.date - evDate))).filter
        (fun p => decide (0 < p.2)) =
      (afterSel prices evDate).map (fun r => (r, r.date - evDate)) := by
  rw [filter_map_comm]
  unfold afterSel
  congr 1
  apply List.filter_congr
  intro r hr
  simp [Int.sub_pos]

/-- C1: when an impact is produced, the selected window records partition
by the sign of the day offset — strictly-before records, strictly-after
records, with a record on the event date in neither — and the two reported
means are the arithmetic means of the partitions, absent exactly when the
partition is empty. -/
theorem claim_C1 (events : List EventRecord) (prices : List DRow) (event_id : Int)
    (ev : EventRecord) (imp : Impact)
    (hev : (events.filter (fun e => e.id == event_id)).head? = some ev)
    (himp : get_event_impact events prices event_id = some imp) :
    (∀ r ∈ windowSel prices ev.date,
        (r ∈ beforeSel prices ev.date ↔ r.date < ev.date) ∧
        (r ∈ afterSel prices ev.date ↔ ev.date < r.date) ∧
        (r.date = ev.date →
          r ∉ beforeSel prices ev.date ∧ r ∉ afterSel prices ev.date)) ∧
    imp.price_before =
      (if beforeSel prices ev.date = [] then none
       else some (meanQ ((beforeSel prices ev.date).map (fun r => r.price)))) ∧
    imp.price_after =
      (if afterSel prices ev.date = [] then none
       else some (meanQ ((afterSel prices ev.date).map (fun r => r.price)))) := by
  rw [get_event_impact_found events prices event_id ev hev] at himp
  unfold impactForEvent at himp
  by_cases hemp : (prices.filter (fun r => inWindow ev.date r.date)).isEmpty
  · rw [if_pos hemp] at himp
    exact absurd himp (by simp)
  · rw [if_neg hemp] at himp
    injection himp with himp
    refine ⟨?_, ?_, ?_⟩
    · intro r hr
      refine ⟨?_, ?_, ?_⟩
      · simp [beforeSel, List.mem_filter, hr]
      · simp [afterSel, List.mem_filter, hr]
      · intro hd
        constructor
        · simp [beforeSel, List.mem_filter, hd]
        · simp [afterSel, List.mem_filter, hd]
    · rw [← himp]
      show (if (((windowSel prices ev.date).map (fun r => (r, r.date - ev.date))).filter
              (fun p => decide (p.2 < 0))).isEmpty then none
            else some (meanQ ((((windowSel prices ev.date).map
              (fun r => (r, r.date - ev.date))).filter
              (fun p => decide (p.2 < 0))).map (fun p => p.1.price)))) = _
      rw [before_event_eq]
      by_cases hb : beforeSel prices ev.date = []
      · simp [hb]
      · rw [if_neg (by simp [hb]), if_neg hb, List.map_map]
        rfl
    · rw [← himp]
      show (if (((windowSel prices ev.date).map (fun r => (r, r.date - ev.date))).filter
              (fun p => decide (0 < p.2))).isEmpty then none
            else some (meanQ ((((windowSel prices ev.date).map
              (fun r => (r, r.date - ev.date))).filter
              (fun p => decide (0 < p.2))).map (fun p => p.1.price)))) = _
      rw [after_event_eq]
      by_cases hb : afterSel prices ev.date = []
      · simp [hb]
      · rw [if_neg (by simp [hb]), if_neg hb, List.map_map]
        rfl

def exEvents : List EventRecord := [⟨1, 0, "", "", "", ""⟩]

def zeroRow (d : Int) (p : ℚ) : DRow := ⟨d, p, none, none, none, none⟩

def exPricesC1 : List DRow := [zeroRow (-1) 5, zeroRow 1 6]

def defaultImpact : Impact := ⟨⟨0, 0, "", "", "", ""⟩, none, none, none, []⟩

def exImpC1 : Impact := (get_event_impact exEvents exPricesC1 1).getD defaultImpact

theorem claim_C1_witness :
    get_event_impact exEvents exPricesC1 1 = some exImpC1 ∧
    exImpC1.price_before = some 5 ∧
    exImpC1.price_after = some 6 := by
  have h := claim_C1 exEvents exPricesC1 1 ⟨1, 0, "", "", "", ""⟩ exImpC1 rfl
    (by with_unfolding_all rfl)
  exact ⟨by with_unfolding_all rfl,
    (h.2.1).trans (by with_unfolding_all rfl),
    (h.2.2).trans (by with_unfolding_all rfl)⟩

/-- C4, amended: the percentage change is the stated formula whenever both
means are present and non-zero, and is absent when either mean is absent or
zero (Python truthiness); a genuine zero change between equal non-zero
means is reported as 0. -/
theorem claim_C4 (events : List EventRecord) (prices : List DRow) (event_id : Int)
    (imp : Impact)
    (himp : get_event_impact events prices event_id = some imp) :
    (imp.price_change_pct =
      match imp.price_before, imp.price_after with
      | some b, some a => if b ≠ 0 ∧ a ≠ 0 then some ((a - b) / b * 100) else none
      | _, _ => none) ∧
    (∀ c : ℚ, c ≠ 0 → imp.price_before = some c → imp.price_after = some c →
      imp.price_change_pct = some 0) := by
  have hpct : imp.price_change_pct =
      match imp.price_before, imp.price_after with
      | some b, some a => if b ≠ 0 ∧ a ≠ 0 then some ((a - b) / b * 100) else none
      | _, _ => none := by
    rcases hv : (events.filter (fun e => e.id == event_id)).head? with _ | ev
    · rw [get_event_impact_missing events prices event_id hv] at himp
      exact absurd himp (by simp)
    · rw [get_event_impact_found events prices event_id ev hv] at himp
      unfold impactForEvent at himp
      by_cases hemp : (prices.filter (fun r => inWindow ev.date r.date)).isEmpty
      · rw [if_pos hemp] at himp
        exact absurd himp (by simp)
      · rw [if_neg hemp] at himp
        injection himp with himp
        rw [← himp]
  refine ⟨hpct, ?_⟩
  intro c hc h1 h2
  rw [hpct, h1, h2]
  simp [hc, sub_self]

def exPricesC4 : List DRow := [zeroRow (-1) 5, zeroRow 1 0]

/-- C4, counterexample: with mean price 5 before and mean price 0 after,
both means are defined, yet the code reports no percentage change (Python
truthiness treats the float 0.0 as false), while the claim demands the
formula value −100. -/
theorem claim_C4_cex :
    (get_event_impact exEvents exPricesC4 1).map
        (fun i => (i.price_before, i.price_after, i.price_change_pct)) =
      some (some 5, some 0, none) ∧
    (get_event_impact exEvents exPricesC4 1).map (fun i => i.price_change_pct) ≠
      some (some ((0 - 5) / 5 * 100)) := by
  constructor
  · with_unfolding_all rfl
  · with_unfolding_all decide

def exPricesC4w : List DRow := [zeroRow (-1) 4, zeroRow 1 6]

def exImpC4 : Impact := (get_event_impact exEvents exPricesC4w 1).getD defaultImpact

theorem claim_C4_witness :
    get_event_impact exEvents exPricesC4w 1 = some exImpC4 ∧
    exImpC4.price_change_pct = some 50 := by
  have h := claim_C4 exEvents exPricesC4w 1 exImpC4 (by with_unfolding_all rfl)
  exact ⟨by with_unfolding_all rfl, h.1.trans (by with_unfolding_all rfl)⟩

/-- C5: the impact query returns the negative result exactly when the id
does not occur in the event table, or it does but no price record falls in
the closed 30-day window around the event date; with a found event and a
non-empty window selection, a proper impact result is returned. -/
theorem claim_C5 (events : List EventRecord) (prices : List DRow) (event_id : Int) :
    get_event_impact events prices event_id = none ↔
      ((events.filter (fun e => e.id == event_id)).head? = none ∨
       (∃ ev, (events.filter (fun e => e.id == event_id)).head? = some ev ∧
              windowSel prices ev.date = [])) := by
  rcases hv : (events.filter (fun e => e.id == event_id)).head? with _ | ev
  · rw [get_event_impact_missing events prices event_id hv]
    exact ⟨fun _ => Or.inl hv, fun _ => rfl⟩
  · rw [get_event_impact_found events prices event_id ev hv]
    unfold impactForEvent
    by_cases hemp : (prices.filter (fun r => inWindow ev.date r.date)).isEmpty
    · have hw : windowSel prices ev.date = [] := by
        unfold windowSel
        exact List.isEmpty_iff.1 hemp
      rw [if_pos hemp]
      exact ⟨fun _ => Or.inr ⟨ev, hv, hw⟩, fun _ => rfl⟩
    · have hw : windowSel prices ev.date ≠ [] := by
        unfold windowSel
        intro h
        rw [List.isEmpty_iff] at hemp
        exact hemp h
      rw [if_neg hemp]
      constructor
      · intro h
        exact Option.noConfusion h
      · intro h
        rcases h with h | ⟨ev2, hev2, hw2⟩
        · exact Option.noConfusion (h.symm.trans hv)
        · have hee : ev2 = ev := Option.some.inj (hev2.symm.trans hv)
          rw [hee] at hw2
          exact absurd hw2 hw

theorem claim_C5_witness :
    get_event_impact exEvents ([] : List DRow) 1 = none :=
  (claim_C5 exEvents [] 1).mpr (Or.inr ⟨⟨1, 0, "", "", "", ""⟩, rfl, rfl⟩)

/-- C6: when the date-filtered table is longer than the limit (at least 1),
the result is the stride-sampled subsequence with stride `length // limit`,
whose length is that of the Python range expression; and a non-empty
filtered table always yields a non-empty result. -/
theorem claim_C6 (startD endD : Option Int) (limit : Nat) (data df : List DRow)
    (hdf : dateFilterUpper endD (dateFilterLower startD data) = df)
    (hlim : 1 ≤ limit) :
    (limit < df.length →
       get_price_data_core startD endD limit data =
         .ok (strideEvery df (df.length / limit)) ∧
       (strideEvery df (df.length / limit)).length =
         pyRangeLen df.length (df.length / limit)) ∧
    (df ≠ [] →
       ∃ out, get_price_data_core startD endD limit data = .ok out ∧ out ≠ []) := by
  unfold get_price_data_core
  dsimp only
  rw [hdf]
  constructor
  · intro hN
    rw [if_pos hN, if_neg (show ¬limit = 0 by omega)]
    refine ⟨rfl, ?_⟩
    have hstep : 1 ≤ df.length / limit := (Nat.one_le_div_iff (by omega)).2 (by omega)
    rw [strideEvery_length (df.length / limit) hstep df.length df rfl]
    unfold pyRangeLen
    rw [if_neg (by omega)]
  · intro hne
    by_cases hN : limit < df.length
    · rw [if_pos hN, if_neg (show ¬limit = 0 by omega)]
      refine ⟨strideEvery df (df.length / limit), rfl, ?_⟩
      cases df with
      | nil => exact absurd rfl hne
      | cons a rest =>
        rw [strideEvery_cons]
        exact List.cons_ne_nil _ _
    · rw [if_neg hN]
      exact ⟨df, rfl, hne⟩

def exP5 : List DRow :=
  [zeroRow 0 1, zeroRow 1 1, zeroRow 2 1, zeroRow 3 1, zeroRow 4 1]

theorem claim_C6_witness :
    get_price_data_core none none 2 exP5 =
      .ok [zeroRow 0 1, zeroRow 2 1, zeroRow 4 1] ∧
    (strideEvery exP5 (exP5.length / 2)).length =
      pyRangeLen exP5.length (exP5.length / 2) := by
  have h := (claim_C6 none none 2 exP5 exP5 rfl (by decide)).1 (by decide)
  exact ⟨h.1.trans (by with_unfolding_all rfl), h.2⟩

/-- C10: whatever the limit, whenever the filtered table is non-empty the
returned sequence starts with the earliest filtered record, since stride
sampling starts at index 0. -/
theorem claim_C10 (startD endD : Option Int) (limit : Nat) (data df : List DRow)
    (hdf : dateFilterUpper endD (dateFilterLower startD data) = df)
    (hne : df ≠ []) (hlim : 1 ≤ limit) :
    ∃ out, get_price_data_core startD endD limit data = .ok out ∧
      out.head? = df.head? ∧ out ≠ [] := by
  unfold get_price_data_core
  dsimp only
  rw [hdf]
  by_cases hN : limit < df.length
  · rw [if_pos hN, if_neg (show ¬limit = 0 by omega)]
    cases df with
    | nil => exact absurd rfl hne
    | cons a rest =>
      refine ⟨_, rfl, ?_, ?_⟩
      · rw [strideEvery_cons]
        rfl
      · rw [strideEvery_cons]
        exact List.cons_ne_nil _ _
  · rw [if_neg hN]
    exact ⟨df, rfl, rfl, hne⟩

def exP3 : List DRow := [zeroRow 0 1, zeroRow 1 2, zeroRow 2 3]

theorem claim_C10_witness :
    get_price_data_core none none 1 exP3 = .ok [zeroRow 0 1] ∧
    ([zeroRow 0 1] : List DRow).head? = exP3.head? := by
  obtain ⟨out, h1, h2, h3⟩ := claim_C10 none none 1 exP3 exP3 rfl (by decide) (by decide)
  have hconc : get_price_data_core none none 1 exP3 = .ok [zeroRow 0 1] := by
    with_unfolding_all rfl
  have hout : out = [zeroRow 0 1] := Except.ok.inj (h1.symm.trans hconc)
  rw [hout] at h2
  exact ⟨hconc, h2⟩

def loaded3 : List PRecord := [⟨0, 10⟩, ⟨1, 20⟩, ⟨2, 30⟩]

/-- Projection of the four price-distribution statistics the claim is
about: (min, max, mean, median). -/
def statsProj (s : SummaryStats) : ℚ × ℚ × ℚ × ℚ :=
  (s.price_min, s.price_max, s.price_mean, s.price_median)

/-- C7, counterexample: with the loaded price series 10, 20, 30, the
summary statistics are not min 10, max 30, mean 20, median 20, because the
first record is dropped by derivation before the statistics are taken. -/
theorem claim_C7_cex :
    (get_summary_stats (calculate_metrics loaded3)).map statsProj ≠
      some (10, 30, 20, 20) := by
  with_unfolding_all decide

/-- C7, amended: with the loaded price series 10, 20, 30, the summary
statistics are computed over the derived series 20, 30 (the first record
is dropped), giving min 20, max 30, mean 25, median 25. -/
theorem claim_C7 :
    (get_summary_stats (calculate_metrics loaded3)).map statsProj =
      some (20, 30, 25, 25) := by
  with_unfolding_all rfl

theorem parseBound_bad (s : String) (hs : ¬s = "") (hbad : parseDate s = none) :
    parseBound (some s) = .error (.parseError s) := by
  unfold parseBound
  dsimp only
  rw [if_neg hs, hbad]

/-- C8, amended: a malformed (unparseable, non-empty) date bound makes both
query operations surface the raised parse failure itself — carrying the
offending input — rather than a caught-and-converted per-call rejection
value: the fault propagates out of the facade. -/
theorem claim_C8 (s : String) (hs : ¬s = "") (hbad : parseDate s = none)
    (ed : Option String) (limit : Nat) (data : List DRow)
    (t : Option String) (edata : List EventRecord) :
    get_price_data (some s) ed limit data = .error (.parseError s) ∧
    get_events t (some s) ed edata = .error (.parseError s) := by
  have hp := parseBound_bad s hs hbad
  constructor
  · unfold get_price_data
    rw [hp]
  · unfold get_events
    dsimp only
    rw [hp]

/-- C8, counterexample: an unparseable date string produces an uncaught
error outcome from both facade operations, not a converted
invalid-argument result; the claim that the facade catches and converts
is false. -/
theorem claim_C8_cex :
    get_price_data (some "banana") none 5000 [] =
      .error (.parseError "banana") ∧
    get_events none (some "banana") none [] =
      .error (.parseError "banana") := by
  exact ⟨rfl, rfl⟩

theorem claim_C8_witness :
    ( "banana" : String) ≠ "" ∧ parseDate "banana" = none ∧
    get_price_data (some "banana") (some "2020-01-02") 5000 [] =
      .error (.parseError "banana") := by
  refine ⟨by decide, by decide, ?_⟩
  exact (claim_C8 "banana" (by decide) (by decide)
    (some "2020-01-02") 5000 [] none []).1

theorem runQuery_state (s : ApiState) (q : Query) : (runQuery s q).2 = s := by
  cases q <;> rfl

/-- C9: after the load/derive pass, any sequence of read operations leaves
the stored state — price table, event table, change-point payload —
unchanged. -/
theorem claim_C9 (s : ApiState) (qs : List Query) : runQueries s qs = s := by
  induction qs generalizing s with
  | nil => rfl
  | cons q rest ih =>
    unfold runQueries
    rw [List.foldl_cons]
    show List.foldl (fun st q => (runQuery st q).2) ((runQuery s q).2) rest = s
    rw [runQuery_state s q]
    exact ih s

end Oil
